import Mathlib

/-!
Verification of the gopeasant nonce-protocol core.

The Go sources are embedded shallowly:
* `src/dummy/service.go` — `DummyInMemoryNonceService` with its in-memory
  nonce map (presence-only, so the map is a `Finset String`), the
  operations `Clear`, `Consume`, `GetNonce`, `Provided`, `Skip`, and the
  per-nonce expiry event (the ticker branch of `GetNonce`'s goroutine).
* `src/server.go` — `NoncedHandlerFunc`, the request pipeline, modelled
  over an abstract nonce service (a record of the operations used).
* `src/client.go` — `HttpTransport.NewNonce` / `ResolveNonce`.
* `src/service_test.go` — `randomString`, the nonce generator.

HTTP responses are modelled as a status code (the `WrappedWriter.StatusCode`
field: the last status written, 200 when none was) plus a header list;
requests as a URL plus a header list. Go errors are `Option String`
(`none` = nil error). Randomness (`rand.Intn`) is a supplied choice
function; time is modelled by making the expiry event (the ticker firing)
an explicit step.
-/

/-- An HTTP response as seen through `httpok.WrappedWriter`: the tracked
status code and the response headers. -/
structure Response where
  status : Nat
  headers : List (String × String)
deriving DecidableEq, Repr

/-- An HTTP request: its URL and its headers. -/
structure Request where
  url : String
  headers : List (String × String)
deriving DecidableEq, Repr

/-- Go `Header.Get(k)`: the first value stored under key `k`, or `""` when the
key is absent (Go returns the empty string for a missing header). -/
def headerGet (hs : List (String × String)) (k : String) : String :=
  match hs.lookup k with
  | some v => v
  | none => ""

/-- Go `WriteHeader(c)` on a `WrappedWriter`: records `c` as the status. -/
def writeHeader (w : Response) (c : Nat) : Response :=
  { w with status := c }

/-- The in-memory nonce store of `DummyInMemoryNonceService`: the Go map
`map[string]*any` never stores a payload (always `nil`), so only key
presence matters. -/
abbrev Store := Finset String

/-- Embeds `DummyInMemoryNonceService.Clear` (src/dummy/service.go:24-31): if the
key is absent, return nil; otherwise delete it and return nil. -/
def dummyClear (m : Store) (nonce : String) : Store × Option String :=
  if nonce ∉ m then (m, none)
  else (m.erase nonce, none)

/-- Embeds `DummyInMemoryNonceService.Consume` (src/dummy/service.go:35-52): read
the `nonce` request header; if empty or unknown, write 403 and return nil;
otherwise `Clear` it (propagating a `Clear` error) and leave the response
untouched. Returns (new store, response, error). -/
def dummyConsume (m : Store) (res : Response) (req : Request) :
    Store × Response × Option String :=
  let nonce := headerGet req.headers "nonce"
  if nonce = "" then (m, writeHeader res 403, none)
  else if nonce ∉ m then (m, writeHeader res 403, none)
  else
    match dummyClear m nonce with
    | (m', some e) => (m', res, some e)
    | (m', none) => (m', res, none)

/-- Embeds `DummyInMemoryNonceService.GetNonce` (src/dummy/service.go:54-72), with
the random token (`security.RandomString(32)`, an external library call)
supplied as the parameter `nonce`: store it and return it with a nil
error. The expiry ticker it schedules is modelled by `dummyExpire`. -/
def dummyGetNonce (m : Store) (nonce : String) :
    Store × String × Option String :=
  (insert nonce m, nonce, none)

/-- The per-nonce expiry event scheduled by `GetNonce`: when the 250 ms
ticker fires, the goroutine runs `s.Clear(nonce)`
(src/dummy/service.go:65-67). -/
def dummyExpire (m : Store) (nonce : String) : Store :=
  (dummyClear m nonce).1

/-- Embeds `DummyInMemoryNonceService.Provided` (src/dummy/service.go:82-90): if
the `nonce` request header is empty, write 403; always return a nil
error. The store is never consulted. -/
def dummyProvided (res : Response) (req : Request) : Response × Option String :=
  if headerGet req.headers "nonce" = "" then (writeHeader res 403, none)
  else (res, none)

/-- Bool-valued list prefix test (mirrors what `strings.Contains` needs). -/
def listPre : List Char → List Char → Bool
  | [], _ => true
  | _ :: _, [] => false
  | a :: as, b :: bs => a == b && listPre as bs

/-- Go `strings.Contains`: does `sub` occur as a contiguous run of `l`? -/
def hasSub (sub : List Char) : List Char → Bool
  | [] => listPre sub []
  | c :: t => listPre sub (c :: t) || hasSub sub t

/-- Embeds `DummyInMemoryNonceService.Skip` (src/dummy/service.go:75-80): true iff
the request URL contains `"new-nonce"`. -/
def dummySkip (req : Request) : Bool :=
  hasSub "new-nonce".toList req.url.toList

/-- C7: for every nonce value, `Clear` returns a nil error whether or not
the value is present; absence leaves the store unchanged, presence removes
exactly that entry, and clearing twice equals clearing once. -/
theorem clear_idempotent (m : Store) (nonce : String) :
    (dummyClear m nonce).2 = none ∧
    (nonce ∉ m → dummyClear m nonce = (m, none)) ∧
    (nonce ∈ m → (dummyClear m nonce).1 = m.erase nonce) ∧
    dummyClear (dummyClear m nonce).1 nonce = dummyClear m nonce := by
  unfold dummyClear
  by_cases h : nonce ∈ m
  · simp [h]
  · simp [h]

/-- Witness for `clear_idempotent` at a concrete store and nonces both
absent and present. -/
theorem clear_idempotent_witness :
    (("x" ∉ ({"y"} : Store)) ∧ dummyClear {"y"} "x" = ({"y"}, none)) ∧
    (("y" ∈ ({"y"} : Store)) ∧ (dummyClear {"y"} "y").1 = ({"y"} : Store).erase "y") := by
  refine ⟨⟨by decide, ?_⟩, ⟨by decide, ?_⟩⟩
  · exact (clear_idempotent {"y"} "x").2.1 (by decide)
  · exact (clear_idempotent {"y"} "y").2.2.1 (by decide)

/-- C4: a request whose `nonce` header is absent (empty) makes `Provided`
set status 403 Forbidden and return a nil error. -/
theorem provided_missing_denied (res : Response) (req : Request)
    (h : headerGet req.headers "nonce" = "") :
    dummyProvided res req = (writeHeader res 403, none) := by
  unfold dummyProvided
  simp [h]

/-- Witness for `provided_missing_denied` on a concrete header-less request. -/
theorem provided_missing_denied_witness :
    headerGet ([] : List (String × String)) "nonce" = "" ∧
    dummyProvided ⟨200, []⟩ ⟨"/do", []⟩ = (writeHeader ⟨200, []⟩ 403, none) :=
  ⟨rfl, provided_missing_denied ⟨200, []⟩ ⟨"/do", []⟩ rfl⟩

/-- C9: `Provided` checks only presence: any non-empty `nonce` header —
issued or not — yields a nil error and an unchanged response (the store is
not an input of `Provided` at all); validity is checked by `Consume`,
which denies a non-empty unknown value with 403. -/
theorem provided_presence_only (m : Store) (res res' : Response) (req : Request)
    (hne : headerGet req.headers "nonce" ≠ "")
    (hunk : headerGet req.headers "nonce" ∉ m) :
    dummyProvided res req = (res, none) ∧
    dummyConsume m res' req = (m, writeHeader res' 403, none) := by
  constructor
  · unfold dummyProvided
    simp [hne]
  · unfold dummyConsume
    simp [hne, hunk]

/-- Witness for `provided_presence_only`: a never-issued value passes
`Provided` untouched and is denied by `Consume`. -/
theorem provided_presence_only_witness :
    (headerGet [("nonce", "ghost")] "nonce" ≠ "" ∧
     "ghost" ∉ (∅ : Store)) ∧
    dummyProvided ⟨200, []⟩ ⟨"/do", [("nonce", "ghost")]⟩ = (⟨200, []⟩, none) ∧
    dummyConsume ∅ ⟨200, []⟩ ⟨"/do", [("nonce", "ghost")]⟩ =
      (∅, writeHeader ⟨200, []⟩ 403, none) :=
  ⟨⟨by decide, by decide⟩,
   provided_presence_only ∅ ⟨200, []⟩ ⟨200, []⟩ ⟨"/do", [("nonce", "ghost")]⟩
     (by decide) (by decide)⟩

/-- C10: `Consume` touches at most the presented entry: with a missing or
unknown nonce the store is unchanged; with a known nonce exactly that
entry is removed and every other entry's membership is preserved. -/
theorem consume_frame (m : Store) (res : Response) (req : Request) :
    (headerGet req.headers "nonce" = "" → (dummyConsume m res req).1 = m) ∧
    (headerGet req.headers "nonce" ∉ m → (dummyConsume m res req).1 = m) ∧
    (headerGet req.headers "nonce" ≠ "" → headerGet req.headers "nonce" ∈ m →
      (dummyConsume m res req).1 = m.erase (headerGet req.headers "nonce") ∧
      headerGet req.headers "nonce" ∉ (dummyConsume m res req).1 ∧
      ∀ x, x ≠ headerGet req.headers "nonce" →
        (x ∈ (dummyConsume m res req).1 ↔ x ∈ m)) := by
  by_cases he : headerGet req.headers "nonce" = ""
  · simp [dummyConsume, he]
  · by_cases hm : headerGet req.headers "nonce" ∈ m
    · have hres : (dummyConsume m res req).1 =
          m.erase (headerGet req.headers "nonce") := by
        simp [dummyConsume, dummyClear, he, hm]
      refine ⟨fun h => absurd h he, fun h => absurd hm h, fun _ _ => ⟨hres, ?_, fun x hx => ?_⟩⟩
      · rw [hres]; exact Finset.not_mem_erase _ m
      · rw [hres]; exact Finset.mem_erase.trans (by simp [hx])
    · simp [dummyConsume, he, hm]

/-- Witness for `consume_frame`: consuming `"a"` from `{"a","b"}` removes
`"a"` and keeps `"b"`. -/
theorem consume_frame_witness :
    (headerGet [("nonce", "a")] "nonce" ≠ "" ∧
     headerGet [("nonce", "a")] "nonce" ∈ ({"a", "b"} : Store)) ∧
    (dummyConsume {"a", "b"} ⟨200, []⟩ ⟨"/do", [("nonce", "a")]⟩).1 =
      ({"a", "b"} : Store).erase "a" ∧
    (("b" : String) ∈ (dummyConsume {"a", "b"} ⟨200, []⟩ ⟨"/do", [("nonce", "a")]⟩).1 ↔
      ("b" : String) ∈ ({"a", "b"} : Store)) := by
  refine ⟨⟨by decide, by decide⟩, ?_, ?_⟩
  · exact ((consume_frame {"a", "b"} ⟨200, []⟩ ⟨"/do", [("nonce", "a")]⟩).2.2
      (by decide) (by decide)).1
  · exact ((consume_frame {"a", "b"} ⟨200, []⟩ ⟨"/do", [("nonce", "a")]⟩).2.2
      (by decide) (by decide)).2.2 "b" (by decide)

/-- C1: a value returned by `GetNonce` passes `Consume` at most once: the
first `Consume` presenting it returns a nil error, leaves the response
status below 300 and removes the value from the store; every later
`Consume` presenting it writes 403, returns a nil error and leaves the
store unchanged. The hypothesis `nonce ≠ ""` reflects that
`security.RandomString(32)` returns a 32-character token. -/
theorem consume_at_most_once (m : Store) (res res' : Response) (u : String)
    (nonce : String) (hne : nonce ≠ "") (hlt : res.status < 300) :
    (dummyGetNonce m nonce).2.2 = none ∧
    (let m1 := (dummyGetNonce m nonce).1
     let first := dummyConsume m1 res ⟨u, [("nonce", nonce)]⟩
     first.2.2 = none ∧ first.2.1.status < 300 ∧ nonce ∉ first.1 ∧
     ∀ res'' : Response, res'' = res' →
       dummyConsume first.1 res'' ⟨u, [("nonce", nonce)]⟩ =
         (first.1, writeHeader res'' 403, none)) := by
  refine ⟨rfl, ?_, ?_, ?_, ?_⟩
  · simp [dummyGetNonce, dummyConsume, dummyClear, headerGet, hne]
  · simpa [dummyGetNonce, dummyConsume, dummyClear, headerGet, hne] using hlt
  · simp [dummyGetNonce, dummyConsume, dummyClear, headerGet, hne]
  · intro res'' _
    set m2 := (dummyConsume (dummyGetNonce m nonce).1 res ⟨u, [("nonce", nonce)]⟩).1
      with hm2
    have hnotin : nonce ∉ m2 := by
      rw [hm2]
      simp [dummyGetNonce, dummyConsume, dummyClear, headerGet, hne]
    simp [dummyConsume, headerGet, hne, hnotin]

/-- Witness for `consume_at_most_once`: issue `"tok"` into the empty store,
consume it once successfully, then be denied. -/
theorem consume_at_most_once_witness :
    (("tok" : String) ≠ "" ∧ (200 : Nat) < 300) ∧
    ((dummyGetNonce ∅ "tok").2.2 = none ∧
     (let m1 := (dummyGetNonce ∅ "tok").1
      let first := dummyConsume m1 ⟨200, []⟩ ⟨"/do", [("nonce", "tok")]⟩
      first.2.2 = none ∧ first.2.1.status < 300 ∧ "tok" ∉ first.1 ∧
      ∀ res'' : Response, res'' = ⟨200, []⟩ →
        dummyConsume first.1 res'' ⟨"/do", [("nonce", "tok")]⟩ =
          (first.1, writeHeader res'' 403, none))) :=
  ⟨⟨by decide, by decide⟩,
   consume_at_most_once ∅ ⟨200, []⟩ ⟨200, []⟩ "/do" "tok" (by decide) (by decide)⟩

/-- C2: once the per-nonce expiry event for an unconsumed nonce has fired,
the value is gone from the store (for a fresh value the store returns to
its pre-issue state), and the first `Consume` presenting it afterwards
writes 403 with a nil error and leaves the store unchanged — exactly the
behaviour on a value that never existed. -/
theorem expired_nonce_denied (m : Store) (res : Response) (u : String)
    (nonce : String) (hne : nonce ≠ "") (hfresh : nonce ∉ m) :
    (let m1 := (dummyGetNonce m nonce).1
     let m2 := dummyExpire m1 nonce
     nonce ∉ m2 ∧ m2 = m ∧
     dummyConsume m2 res ⟨u, [("nonce", nonce)]⟩ =
       (m2, writeHeader res 403, none)) := by
  have hm2 : dummyExpire (dummyGetNonce m nonce).1 nonce = m := by
    simp [dummyGetNonce, dummyExpire, dummyClear, Finset.erase_insert hfresh]
  refine ⟨?_, hm2, ?_⟩
  · rw [hm2]; exact hfresh
  · rw [hm2]
    simp [dummyConsume, headerGet, hne, hfresh]

/-- Witness for `expired_nonce_denied`: issue `"tok"`, let it expire, then
present it and be denied. -/
theorem expired_nonce_denied_witness :
    (("tok" : String) ≠ "" ∧ "tok" ∉ (∅ : Store)) ∧
    (let m1 := (dummyGetNonce ∅ "tok").1
     let m2 := dummyExpire m1 "tok"
     "tok" ∉ m2 ∧ m2 = ∅ ∧
     dummyConsume m2 ⟨200, []⟩ ⟨"/do", [("nonce", "tok")]⟩ =
       (m2, writeHeader ⟨200, []⟩ 403, none)) :=
  ⟨⟨by decide, by decide⟩,
   expired_nonce_denied ∅ ⟨200, []⟩ "/do" "tok" (by decide) (by decide)⟩

/-- The `NonceService` operations used by `NoncedHandlerFunc`
(src/service.go), over an explicit service state `σ` (the Go methods
mutate the receiver). Each stateful operation returns the new state, the
response it may have written to, and a Go error. -/
structure ServiceOps (σ : Type) where
  skip : Request → Bool
  provided : σ → Response → Request → σ × Response × Option String
  consume : σ → Response → Request → σ × Response × Option String
  getNonce : σ → Request → σ × String × Option String

/-- Outcome of one run of the handler returned by `NoncedHandlerFunc`:
final service state, final response, and whether the protected action `f`
was invoked. -/
structure PipeResult (σ : Type) where
  state : σ
  resp : Response
  invoked : Bool
deriving DecidableEq, Repr

/-- Embeds `NoncedHandlerFunc` (src/server.go:23-62): skip-exempt requests go
straight to the action on the raw writer; otherwise the request runs
`Provided` → `Consume` → `GetNonce` on a `WrappedWriter` starting at
status 200, writing 500 on any stage error, stopping once the written
status reaches 300, and finally attaching the fresh nonce as a `nonce`
response header before invoking the action. -/
def noncedHandlerFunc {σ : Type} (s : ServiceOps σ) (st : σ) (w : Response)
    (r : Request) : PipeResult σ :=
  if s.skip r then ⟨st, w, true⟩
  else
    let w0 : Response := ⟨200, w.headers⟩
    match s.provided st w0 r with
    | (st1, w1, some _) => ⟨st1, writeHeader w1 500, false⟩
    | (st1, w1, none) =>
      if 300 ≤ w1.status then ⟨st1, w1, false⟩
      else
        match s.consume st1 w1 r with
        | (st2, w2, some _) => ⟨st2, writeHeader w2 500, false⟩
        | (st2, w2, none) =>
          if 300 ≤ w2.status then ⟨st2, w2, false⟩
          else
            match s.getNonce st2 r with
            | (st3, _, some _) => ⟨st3, writeHeader w2 500, false⟩
            | (st3, n, none) =>
              if 300 ≤ w2.status then ⟨st3, w2, false⟩
              else ⟨st3, ⟨w2.status, w2.headers ++ [("nonce", n)]⟩, true⟩


/-- Run characterization: a `Provided` error makes the pipeline write 500
and skip the action. -/
theorem run_provided_err {σ : Type} (s : ServiceOps σ) (st : σ) (w : Response)
    (r : Request) (st1 : σ) (w1 : Response) (e : String)
    (hskip : s.skip r = false)
    (hp : s.provided st ⟨200, w.headers⟩ r = (st1, w1, some e)) :
    noncedHandlerFunc s st w r = ⟨st1, writeHeader w1 500, false⟩ := by
  simp [noncedHandlerFunc, hskip, hp]

/-- Run characterization: a status at or above 300 after `Provided` stops
the pipeline with the written response. -/
theorem run_provided_denied {σ : Type} (s : ServiceOps σ) (st : σ) (w : Response)
    (r : Request) (st1 : σ) (w1 : Response)
    (hskip : s.skip r = false)
    (hp : s.provided st ⟨200, w.headers⟩ r = (st1, w1, none))
    (hst : 300 ≤ w1.status) :
    noncedHandlerFunc s st w r = ⟨st1, w1, false⟩ := by
  simp [noncedHandlerFunc, hskip, hp, hst]

/-- Run characterization: a `Consume` error makes the pipeline write 500
and skip the action. -/
theorem run_consume_err {σ : Type} (s : ServiceOps σ) (st : σ) (w : Response)
    (r : Request) (st1 st2 : σ) (w1 w2 : Response) (e : String)
    (hskip : s.skip r = false)
    (hp : s.provided st ⟨200, w.headers⟩ r = (st1, w1, none))
    (hst : w1.status < 300)
    (hc : s.consume st1 w1 r = (st2, w2, some e)) :
    noncedHandlerFunc s st w r = ⟨st2, writeHeader w2 500, false⟩ := by
  simp [noncedHandlerFunc, hskip, hp, Nat.not_le_of_lt hst, hc]

/-- Run characterization: a status at or above 300 after `Consume` stops
the pipeline with the written response. -/
theorem run_consume_denied {σ : Type} (s : ServiceOps σ) (st : σ) (w : Response)
    (r : Request) (st1 st2 : σ) (w1 w2 : Response)
    (hskip : s.skip r = false)
    (hp : s.provided st ⟨200, w.headers⟩ r = (st1, w1, none))
    (hst : w1.status < 300)
    (hc : s.consume st1 w1 r = (st2, w2, none))
    (hst2 : 300 ≤ w2.status) :
    noncedHandlerFunc s st w r = ⟨st2, w2, false⟩ := by
  simp [noncedHandlerFunc, hskip, hp, Nat.not_le_of_lt hst, hc, hst2]

/-- Run characterization: a `GetNonce` error makes the pipeline write 500
and skip the action. -/
theorem run_getnonce_err {σ : Type} (s : ServiceOps σ) (st : σ) (w : Response)
    (r : Request) (st1 st2 st3 : σ) (w1 w2 : Response) (n e : String)
    (hskip : s.skip r = false)
    (hp : s.provided st ⟨200, w.headers⟩ r = (st1, w1, none))
    (hst : w1.status < 300)
    (hc : s.consume st1 w1 r = (st2, w2, none))
    (hst2 : w2.status < 300)
    (hg : s.getNonce st2 r = (st3, n, some e)) :
    noncedHandlerFunc s st w r = ⟨st3, writeHeader w2 500, false⟩ := by
  simp [noncedHandlerFunc, hskip, hp, Nat.not_le_of_lt hst, hc,
    Nat.not_le_of_lt hst2, hg]

/-- Run characterization: with three clean stages the action is invoked on
the response carrying the fresh `nonce` header. -/
theorem run_success {σ : Type} (s : ServiceOps σ) (st : σ) (w : Response)
    (r : Request) (st1 st2 st3 : σ) (w1 w2 : Response) (n : String)
    (hskip : s.skip r = false)
    (hp : s.provided st ⟨200, w.headers⟩ r = (st1, w1, none))
    (hst : w1.status < 300)
    (hc : s.consume st1 w1 r = (st2, w2, none))
    (hst2 : w2.status < 300)
    (hg : s.getNonce st2 r = (st3, n, none)) :
    noncedHandlerFunc s st w r =
      ⟨st3, ⟨w2.status, w2.headers ++ [("nonce", n)]⟩, true⟩ := by
  simp [noncedHandlerFunc, hskip, hp, Nat.not_le_of_lt hst, hc,
    Nat.not_le_of_lt hst2, hg]

/-- C3: on a non-exempt request the action runs only if `Provided`,
`Consume` and `GetNonce` all returned nil errors with every written status
below 300; and whichever executed stage returns a non-nil error makes the
pipeline write 500 and never invoke the action. -/
theorem pipeline_gate {σ : Type} (s : ServiceOps σ) (st : σ) (w : Response)
    (r : Request) (hskip : s.skip r = false) :
    ((noncedHandlerFunc s st w r).invoked = true →
      ∃ st1 w1 st2 w2 st3 n,
        s.provided st ⟨200, w.headers⟩ r = (st1, w1, none) ∧ w1.status < 300 ∧
        s.consume st1 w1 r = (st2, w2, none) ∧ w2.status < 300 ∧
        s.getNonce st2 r = (st3, n, none)) ∧
    (∀ st1 w1 e, s.provided st ⟨200, w.headers⟩ r = (st1, w1, some e) →
      (noncedHandlerFunc s st w r).resp.status = 500 ∧
      (noncedHandlerFunc s st w r).invoked = false) ∧
    (∀ st1 w1 st2 w2 e, s.provided st ⟨200, w.headers⟩ r = (st1, w1, none) →
      w1.status < 300 → s.consume st1 w1 r = (st2, w2, some e) →
      (noncedHandlerFunc s st w r).resp.status = 500 ∧
      (noncedHandlerFunc s st w r).invoked = false) ∧
    (∀ st1 w1 st2 w2 st3 n e, s.provided st ⟨200, w.headers⟩ r = (st1, w1, none) →
      w1.status < 300 → s.consume st1 w1 r = (st2, w2, none) →
      w2.status < 300 → s.getNonce st2 r = (st3, n, some e) →
      (noncedHandlerFunc s st w r).resp.status = 500 ∧
      (noncedHandlerFunc s st w r).invoked = false) := by
  refine ⟨?_, ?_, ?_, ?_⟩
  · intro hinv
    rcases hp : s.provided st ⟨200, w.headers⟩ r with ⟨st1, w1, e1⟩
    cases e1 with
    | some e =>
      rw [run_provided_err s st w r st1 w1 e hskip hp] at hinv
      exact absurd hinv (by simp)
    | none =>
      by_cases hst : (300 : Nat) ≤ w1.status
      · rw [run_provided_denied s st w r st1 w1 hskip hp hst] at hinv
        exact absurd hinv (by simp)
      · have hst' := Nat.lt_of_not_le hst
        rcases hc : s.consume st1 w1 r with ⟨st2, w2, e2⟩
        cases e2 with
        | some e =>
          rw [run_consume_err s st w r st1 st2 w1 w2 e hskip hp hst' hc] at hinv
          exact absurd hinv (by simp)
        | none =>
          by_cases hst2 : (300 : Nat) ≤ w2.status
          · rw [run_consume_denied s st w r st1 st2 w1 w2 hskip hp hst' hc hst2] at hinv
            exact absurd hinv (by simp)
          · have hst2' := Nat.lt_of_not_le hst2
            rcases hg : s.getNonce st2 r with ⟨st3, n, e3⟩
            cases e3 with
            | some e =>
              rw [run_getnonce_err s st w r st1 st2 st3 w1 w2 n e hskip hp hst'
                hc hst2' hg] at hinv
              exact absurd hinv (by simp)
            | none =>
              exact ⟨st1, w1, st2, w2, st3, n, rfl, hst', hc, hst2', hg⟩
  · intro st1 w1 e hp
    rw [run_provided_err s st w r st1 w1 e hskip hp]
    exact ⟨rfl, rfl⟩
  · intro st1 w1 st2 w2 e hp hst hc
    rw [run_consume_err s st w r st1 st2 w1 w2 e hskip hp hst hc]
    exact ⟨rfl, rfl⟩
  · intro st1 w1 st2 w2 st3 n e hp hst hc hst2 hg
    rw [run_getnonce_err s st w r st1 st2 st3 w1 w2 n e hskip hp hst hc hst2 hg]
    exact ⟨rfl, rfl⟩

/-- A concrete service whose `Provided` stage always fails with an error,
used to exhibit the 500 path of the pipeline. -/
def errService : ServiceOps Unit where
  skip := fun _ => false
  provided := fun _ w _ => ((), w, some "store down")
  consume := fun _ w _ => ((), w, none)
  getNonce := fun _ _ => ((), "n", none)

/-- Witness for `pipeline_gate`: a `Provided` error yields status 500 and
no action invocation. -/
theorem pipeline_gate_witness :
    (errService.skip ⟨"/do", []⟩ = false ∧
     errService.provided () ⟨200, []⟩ ⟨"/do", []⟩ =
       ((), ⟨200, []⟩, some "store down")) ∧
    (noncedHandlerFunc errService () ⟨200, []⟩ ⟨"/do", []⟩).resp.status = 500 ∧
    (noncedHandlerFunc errService () ⟨200, []⟩ ⟨"/do", []⟩).invoked = false :=
  ⟨⟨rfl, rfl⟩,
   (pipeline_gate errService () ⟨200, []⟩ ⟨"/do", []⟩ rfl).2.1 ()
     ⟨200, []⟩ "store down" rfl⟩

/-- C5: a request the service's `Skip` exempts goes straight to the
protected action: the pipeline returns with the action invoked, the
service state untouched and the raw response unchanged, for every service
and request — in particular, with the dummy `Skip`, for every request
whose URL contains `"new-nonce"`, whatever its nonce header. -/
theorem skip_bypasses :
    (∀ (σ : Type) (s : ServiceOps σ) (st : σ) (w : Response) (r : Request),
      s.skip r = true → noncedHandlerFunc s st w r = ⟨st, w, true⟩) ∧
    (∀ (σ : Type) (s : ServiceOps σ) (st : σ) (w : Response) (r : Request),
      s.skip = dummySkip → hasSub "new-nonce".toList r.url.toList = true →
      noncedHandlerFunc s st w r = ⟨st, w, true⟩) := by
  have base : ∀ (σ : Type) (s : ServiceOps σ) (st : σ) (w : Response)
      (r : Request), s.skip r = true → noncedHandlerFunc s st w r = ⟨st, w, true⟩ := by
    intro σ s st w r h
    simp [noncedHandlerFunc, h]
  refine ⟨base, fun σ s st w r hs hurl => base σ s st w r ?_⟩
  rw [hs]
  exact hurl

/-- A concrete service using the dummy `Skip` predicate. -/
def dummySkipService : ServiceOps Unit where
  skip := dummySkip
  provided := fun _ w _ => ((), w, none)
  consume := fun _ w _ => ((), w, none)
  getNonce := fun _ _ => ((), "n", none)

/-- Witness for `skip_bypasses`: a nonce-less request to a URL containing
`new-nonce` reaches the action directly. -/
theorem skip_bypasses_witness :
    (dummySkipService.skip = dummySkip ∧
     hasSub "new-nonce".toList ("/nonce/new-nonce".toList) = true) ∧
    noncedHandlerFunc dummySkipService () ⟨200, []⟩ ⟨"/nonce/new-nonce", []⟩ =
      ⟨(), ⟨200, []⟩, true⟩ :=
  ⟨⟨rfl, by decide⟩,
   skip_bypasses.2 Unit dummySkipService () ⟨200, []⟩ ⟨"/nonce/new-nonce", []⟩
     rfl (by decide)⟩

/-- Constant `asciiLower` of `randomString` (src/service_test.go:14). -/
def asciiLower : String := "abcdefghijklmnopqrstuvwxyz"

/-- Constant `asciiUpper` of `randomString` (src/service_test.go:15). -/
def asciiUpper : String := "ABCDEFGHIJKLMNOPQRSTUVWXYZ"

/-- Constant `digits` of `randomString`, exactly as written in the source
(src/service_test.go:16): the character `8` is absent. -/
def digits : String := "012345679"

/-- Constant `chars` of `randomString` (src/service_test.go:17). -/
def chars : List Char := (asciiLower ++ asciiUpper ++ digits).toList

/-- Embeds `randomString` (src/service_test.go:13-23), with `rand.Intn(len(chars))`
modelled by the supplied choice function `pick` (its values are indices
below `chars.length`; out-of-range values are clamped by `getD`, which the
Go code never hits). -/
def randomString (s : Nat) (pick : Nat → Nat) : String :=
  ⟨(List.range s).map fun i => chars.getD (pick i) 'a'⟩

/-- C6 at the failing character `8`: the code's alphabet has 61 characters,
not the 62 of the full alphanumeric alphabet — `8` is a digit yet can never
be drawn, so the draw is not uniform over lower-case letters, upper-case
letters and digits; length 32 and closure in the code's own alphabet do
hold, shown here on a concrete run. -/
theorem randomString_missing_digit :
    chars.length = 61 ∧
    chars.contains '8' = false ∧
    "0123456789".toList.contains '8' = true ∧
    (randomString 32 (fun i => (i * 7 + 3) % 61)).length = 32 ∧
    (randomString 32 (fun i => (i * 7 + 3) % 61)).toList.contains '8' = false ∧
    (randomString 32 (fun i => (i * 7 + 3) % 61)).toList.all
      (fun c => chars.contains c) = true := by
  decide

/-- An HTTP response as seen by the caller-side transport: status code,
status text (`res.Status`, e.g. `"404 Not Found"`) and headers. -/
structure HttpResponse where
  statusCode : Nat
  statusText : String
  headers : List (String × String)
deriving DecidableEq, Repr

/-- Embeds `HttpTransport.ResolveNonce` (src/client.go:71-73): the response header
under the configured nonce key. -/
def resolveNonce (nonceKey : String) (res : HttpResponse) : String :=
  headerGet res.headers nonceKey

/-- The tail of `HttpTransport.NewNonce` (src/client.go:93-96), once
`Client.Do` has delivered the response: error with the status text iff
`res.StatusCode > 299`, otherwise the resolved nonce with a nil error. -/
def newNonceFromResponse (nonceKey : String) (res : HttpResponse) :
    String × Option String :=
  if 299 < res.statusCode then ("", some res.statusText)
  else (resolveNonce nonceKey res, none)

/-- C8 as stated is false: status 100 is not 2xx, yet `NewNonce` does not
error there — it returns the header value with a nil error, because the
code's threshold is `> 299`, not `non-2xx`. -/
theorem newNonce_non2xx_counterexample :
    (¬ (200 ≤ 100 ∧ 100 ≤ 299)) ∧
    newNonceFromResponse "Nonce" ⟨100, "100 Continue", [("Nonce", "abc")]⟩ =
      ("abc", none) := by
  constructor
  · decide
  · rfl

/-- C8 amended: `NewNonce` fails with the response's status text exactly
when the status exceeds 299; any status at most 299 (all of 2xx, and also
informational statuses) yields the configured nonce header with a nil
error. -/
theorem newNonce_status_threshold (nonceKey : String) (res : HttpResponse) :
    (299 < res.statusCode →
      newNonceFromResponse nonceKey res = ("", some res.statusText)) ∧
    (res.statusCode ≤ 299 →
      newNonceFromResponse nonceKey res =
        (headerGet res.headers nonceKey, none)) := by
  unfold newNonceFromResponse resolveNonce
  constructor
  · intro h
    rw [if_pos h]
  · intro h
    rw [if_neg (by omega)]

/-- Witness for `newNonce_status_threshold`: a 404 errors with its status
text, a 200 returns the nonce header. -/
theorem newNonce_status_threshold_witness :
    ((299 : Nat) < 404 ∧
     newNonceFromResponse "Nonce" ⟨404, "404 Not Found", []⟩ =
       ("", some "404 Not Found")) ∧
    ((200 : Nat) ≤ 299 ∧
     newNonceFromResponse "Nonce" ⟨200, "200 OK", [("Nonce", "abc")]⟩ =
       (headerGet [("Nonce", "abc")] "Nonce", none)) :=
  ⟨⟨by decide,
    (newNonce_status_threshold "Nonce" ⟨404, "404 Not Found", []⟩).1 (by decide)⟩,
   ⟨by decide,
    (newNonce_status_threshold "Nonce" ⟨200, "200 OK", [("Nonce", "abc")]⟩).2
      (by decide)⟩⟩
